import Mathlib

/-!
# Verification of the Ai_scam_detection fraud-triage service

Shallow embedding of the service's two components and their checkable
claims:

* the detection functions `detect_sms_phishing` and `detect_email_scam`
  (from `src/main.py`), embedded with exact rational arithmetic in place
  of Python floats — every comparison the code performs is exact at the
  values reachable here, so the Bool outcomes agree;
* the dispatch router `smart_router` (from `src/main.py`), embedded over
  a small JSON value type, with the two credential headers as
  `Option String`;
* the spec's risk-scoring engine `score_text`, which is described in the
  specification but absent from the repository's source files; it is
  modelled from the spec's words (each such definition says so in its
  doc comment).
-/

namespace AiScamDetection

/-! ### Python string primitives -/

/-- ASCII whitespace test used for Python's `str.split()` tokenisation. -/
def isWs (c : Char) : Bool := c == ' ' || c == '\t' || c == '\n' || c == '\r'

/-- `pfxOf n h`: the char list `n` is a prefix of `h`. -/
def pfxOf : List Char → List Char → Bool
  | [], _ => true
  | _ :: _, [] => false
  | a :: as, b :: bs => a == b && pfxOf as bs

/-- `subOf n h`: the char list `n` occurs contiguously inside `h`
(Python's `n in h` on strings). -/
def subOf (n : List Char) : List Char → Bool
  | [] => pfxOf n []
  | c :: t => pfxOf n (c :: t) || subOf n t

/-- Python `needle in hay` for strings: contiguous substring containment. -/
def strContains (hay needle : String) : Bool := subOf needle.data hay.data

/-- ASCII lower-casing of one character, as Python's `str.lower()` acts on
the ASCII texts this service handles. -/
def lowerChar (c : Char) : Char :=
  if 'A' ≤ c ∧ c ≤ 'Z' then Char.ofNat (c.toNat + 32) else c

/-- Python `s.lower()` (ASCII fragment). -/
def pyLower (s : String) : String := String.mk (s.data.map lowerChar)

/-- Tokeniser worker for Python `str.split()`: walks the text keeping the
current (reversed) in-progress token in `acc`, flushing it at whitespace. -/
def wsSplitAux : List Char → List Char → List (List Char)
  | [], acc => if acc = [] then [] else [acc.reverse]
  | c :: t, acc =>
    if isWs c then
      if acc = [] then wsSplitAux t [] else acc.reverse :: wsSplitAux t []
    else
      wsSplitAux t (c :: acc)

/-- Python `s.split()`: whitespace-separated tokens, empties dropped. -/
def wsSplit (cs : List Char) : List (List Char) := wsSplitAux cs []

/-! ### JSON payloads and the dispatch router (`smart_router`, src/main.py) -/

/-- A JSON value, as far as the router's structural probing needs it. -/
inductive JVal where
  | jstr (s : String)
  | jnum (n : Int)
  | jbool (b : Bool)
  | jnull
  | jarr (elems : List JVal)
  | jobj (fields : List (String × JVal))

/-- A parsed JSON object body: an open mapping from keys to values. -/
abbrev Payload := List (String × JVal)

/-- Python `key in data` for a dict payload. -/
def hasKey (d : Payload) (k : String) : Bool := d.any (fun kv => kv.1 == k)

/-- Python `data.get(key, default)`. -/
def lookupD (d : Payload) (k : String) (dflt : JVal) : JVal :=
  match d.find? (fun kv => kv.1 == k) with
  | some kv => kv.2
  | none => dflt

/-- The configured secret (`SUBMISSION_API_KEY` in src/main.py). -/
def SUBMISSION_API_KEY : String := "mysecretkey"

/-- Python `a or b` on two optional header strings: `a` when it is present
and non-empty (truthy), else `b`. -/
def pyOr (a b : Option String) : Option String :=
  match a with
  | some s => if s = "" then b else some s
  | none => b

/-- Response of `handle_voice_logic` (src/main.py). -/
structure VoiceResponse where
  status : String
  language : JVal
  classification : String
  confidenceScore : ℚ
  explanation : String

/-- `handle_voice_logic` (src/main.py): the constant voice verdict, echoing
the language it was given. -/
def handle_voice_logic (language_input : JVal) : VoiceResponse :=
  { status := "success"
    language := language_input
    classification := "HUMAN"
    confidenceScore := 98 / 100
    explanation := "Natural pitch variation and background noise consistent with human recording." }

/-- Response of `handle_honeypot_logic` (src/main.py). -/
structure HoneypotResponse where
  status : String
  reply : String

/-- `handle_honeypot_logic` (src/main.py): the constant honeypot reply. -/
def handle_honeypot_logic : HoneypotResponse :=
  { status := "success"
    reply := "I am confused. Why is my account being suspended? Can you explain?" }

/-- Outcome of one `smart_router` call: an HTTP error (`status`, `detail`)
raised through `HTTPException`, or the invoked handler's response. -/
inductive RouterResult where
  | err (status : Nat) (message : String)
  | voice (resp : VoiceResponse)
  | honeypot (resp : HoneypotResponse)

/-- `smart_router` (src/main.py, lines 179–225) on an already-parsed JSON
object body: resolves the credential as `x_api_key or authorization`,
enforces it only when the payload carries `audioBase64` or `sessionId`,
then probes the shape — `audioBase64` first (language defaulting to
"English"), then `sessionId`/`message`, else a 400. -/
def smart_router (data : Payload) (authorization x_api_key : Option String) :
    RouterResult :=
  let api_key := pyOr x_api_key authorization
  let is_protected_action := hasKey data "audioBase64" || hasKey data "sessionId"
  if is_protected_action = true ∧ api_key ≠ some SUBMISSION_API_KEY then
    .err 401 "Invalid API key or malformed request"
  else if hasKey data "audioBase64" then
    .voice (handle_voice_logic (lookupD data "language" (.jstr "English")))
  else if hasKey data "sessionId" || hasKey data "message" then
    .honeypot handle_honeypot_logic
  else
    .err 400 "Unknown request type"

/-! ### The SMS detector (`detect_sms_phishing`, src/main.py lines 93–109) -/

/-- Result shape of `detect_sms_phishing`. Python floats become exact
rationals: every arithmetic step the code performs (`k * 0.2`, `min`,
`> 0.4`) is exact in binary64 at the reachable values, so the embedded
comparisons agree with the code's. -/
structure SmsResult where
  status : String
  is_phishing : Bool
  probability : ℚ
  explanation : String

/-- The fixed keyword list of `detect_sms_phishing`. -/
def phishing_keywords : List String :=
  ["urgent", "verify", "account", "suspended", "click", "link", "bank",
   "prize", "winner"]

/-- `detect_sms_phishing` (src/main.py): counts, with multiplicity, the
whitespace-split lower-cased tokens that are keywords, caps the scaled
probability at 0.99 and calls it phishing above 0.4. -/
def detect_sms_phishing (text : String) : SmsResult :=
  let words := wsSplit (pyLower text).data
  let score : ℕ := words.foldl
    (fun acc w =>
      if (phishing_keywords.map String.data).contains w then acc + 1 else acc)
    0
  let probability : ℚ := min ((score : ℚ) * (2 / 10)) (99 / 100)
  { status := "success"
    is_phishing := decide (probability > 4 / 10)
    probability := probability
    explanation :=
      if score > 0 then
        "Found " ++ toString score ++ " suspicious keywords."
      else
        "No suspicious keywords found." }

/-! ### The email detector (`detect_email_scam`, src/main.py lines 111–129) -/

/-- Result shape of `detect_email_scam` (rationals for Python floats; all
comparisons the code makes are exact at the reachable values). -/
structure EmailResult where
  status : String
  scam_score : ℚ
  verdict : String
  analysis : String

/-- The fixed suspicious-domain list of `detect_email_scam`. -/
def suspicious_domains : List String :=
  ["free-money.com", "verify-account.net", "urgent-notice.org"]

/-- The accumulated (unclamped) score of `detect_email_scam`: base 0.1,
plus 0.4 for a suspicious domain in the sender, 0.3 for urgency in the
subject, 0.2 for credential baiting in the body. -/
def emailRawScore (sender subject body : String) : ℚ :=
  1 / 10
    + (if suspicious_domains.any (fun d => strContains sender d) then 4 / 10 else 0)
    + (if strContains (pyLower subject) "urgent"
          || strContains (pyLower subject) "action required" then 3 / 10 else 0)
    + (if strContains (pyLower body) "password"
          || strContains (pyLower body) "credit card" then 2 / 10 else 0)

/-- `detect_email_scam` (src/main.py): clamps the accumulated score at
0.99 for the report, and issues the verdict from the unclamped score. -/
def detect_email_scam (sender subject body : String) : EmailResult :=
  let scam_score := emailRawScore sender subject body
  { status := "success"
    scam_score := min scam_score (99 / 100)
    verdict := if scam_score > 5 / 10 then "SCAM" else "SAFE"
    analysis := if scam_score > 5 / 10 then "High scam likelihood." else "Seems safe." }

/-! ### The risk-scoring engine (`score_text`, spec §4.1)

The engine the specification describes (bounded 0–100 score, flags,
Low/Medium/High level, channel-dependent link weight) appears in no file
of the repository as shipped; every definition below is modelled from the
spec's words. -/

/-- The message medium that parameterizes link-risk weighting (spec §3). -/
inductive Channel where
  | sms
  | email
deriving DecidableEq

/-- Modelled from the spec: the `ScoreResult` value of §3 — clamped
integer score, ordered flag strings, categorical level. -/
structure ScoreResult where
  score : ℕ
  flags : List String
  level : String
deriving DecidableEq

/-- Modelled from the spec: the level mapping of §4.1 step 7, evaluated on
the clamped score, lower bounds inclusive. -/
def levelOf (score : ℕ) : String :=
  if 60 ≤ score then "High" else if 30 ≤ score then "Medium" else "Low"

/-- Modelled from the spec: the keywords of one category found as
substrings of the lower-cased text, deduplicated by keyword (§4.1
steps 2–3), in the category's configured iteration order. -/
def matchedKeywords (kws : List String) (text : String) : List String :=
  kws.filter (fun k => strContains (pyLower text) k)

/-- Modelled from the spec: a URL-shaped match begins here — an
`http`/`https` scheme, or a bare `www.` prefix, followed by at least one
non-whitespace character (§4.1 step 4). -/
def urlStartAt (cs : List Char) : Bool :=
  (pfxOf "http://".data cs && decide (7 < cs.length))
    || (pfxOf "https://".data cs && decide (8 < cs.length))
    || (pfxOf "www.".data cs && decide (4 < cs.length))

/-- Modelled from the spec: some position of this whitespace-free token
starts a URL-shaped match. -/
def urlTok : List Char → Bool
  | [] => false
  | c :: t => urlStartAt (c :: t) || urlTok t

/-- Modelled from the spec: the matched link itself — the token's suffix
from the first URL start (what the link flag surfaces). -/
def urlSuffix : List Char → List Char
  | [] => []
  | c :: t => if urlStartAt (c :: t) then c :: t else urlSuffix t

/-- Modelled from the spec: the URL-shaped matches of the original-case
text, one per whitespace-delimited token that contains a URL start. -/
def urlMatches (text : String) : List (List Char) :=
  (wsSplit text.data).filter urlTok

/-- Modelled from the spec: flat link points by channel — 40 for sms, 15
for email (§4.1 step 4). -/
def linkPoints : Channel → ℕ
  | .sms => 40
  | .email => 15

/-- Modelled from the spec: the panic-language audit flag, naming the
awarded points and the matched keyword list. -/
def panicFlag (pts : ℕ) (ks : List String) : String :=
  "Panic language (+" ++ toString pts ++ " pts): " ++ String.intercalate ", " ks

/-- Modelled from the spec: the financial-bait audit flag. -/
def baitFlag (pts : ℕ) (ks : List String) : String :=
  "Financial bait (+" ++ toString pts ++ " pts): " ++ String.intercalate ", " ks

/-- Modelled from the spec: the suspicious-link audit flag, surfacing only
the first matched link. -/
def linkFlag (pts : ℕ) (link : String) : String :=
  "Suspicious link (+" ++ toString pts ++ " pts): " ++ link

/-- Modelled from the spec: the single flag of a clean text (§4.1 step 6). -/
def cleanFlag : String := "No suspicious indicators found."

/-- Modelled from the spec: `score_text` (§4.1) — panic and financial
keyword categories at 20 points per distinct matched keyword, a flat
channel-weighted link bonus, clamp at 100, the clean flag exactly when
the final score is 0, and the level from the clamped score. -/
def score_text (panicKws baitKws : List String) (text : String)
    (channel : Channel) : ScoreResult :=
  let pMatched := matchedKeywords panicKws text
  let bMatched := matchedKeywords baitKws text
  let urls := urlMatches text
  let pPts := 20 * pMatched.length
  let bPts := 20 * bMatched.length
  let lPts := if urls.length > 0 then linkPoints channel else 0
  let score := min (pPts + bPts + lPts) 100
  let flags :=
    (if pMatched.length > 0 then [panicFlag pPts pMatched] else [])
      ++ (if bMatched.length > 0 then [baitFlag bPts bMatched] else [])
      ++ (if urls.length > 0 then
            [linkFlag lPts (String.mk (urlSuffix (urls.headD [])))]
          else [])
  { score := score
    flags := if score = 0 then [cleanFlag] else flags
    level := levelOf score }

/-- The panic-language keyword configuration of the spec's reference
example (§8): concrete instance used by witnesses. -/
def panicKeywords : List String := ["urgent", "verify"]

/-- The financial-bait keyword configuration of the spec's reference
example (§8): concrete instance used by witnesses. -/
def baitKeywords : List String := ["account"]

/-! ## Theorems -/

/-! ### Dispatch router: authentication gating (C1, C2) -/

/-- C1 counterexample: a payload classified HoneypotConversation through
its `message` field alone, sent with no credential at all, is dispatched
to the honeypot handler — no AuthError is produced, refuting the claim
that every Voice/HoneypotConversation payload is credential-gated. -/
theorem router_message_only_bypasses_auth :
    smart_router [("message", JVal.jstr "hello")] none none
      = .honeypot handle_honeypot_logic := rfl

/-- C1 (amended): the router gates exactly the payloads carrying
`audioBase64` or `sessionId`: for those, a missing or mismatched resolved
credential yields the 401 AuthError and no handler runs, while a valid
credential always reaches a handler (voice or honeypot). -/
theorem smart_router_protected_gate (data : Payload) (auth xkey : Option String)
    (hprot : (hasKey data "audioBase64" || hasKey data "sessionId") = true) :
    (pyOr xkey auth ≠ some SUBMISSION_API_KEY →
      smart_router data auth xkey = .err 401 "Invalid API key or malformed request") ∧
    (pyOr xkey auth = some SUBMISSION_API_KEY →
      smart_router data auth xkey
          = .voice (handle_voice_logic (lookupD data "language" (.jstr "English")))
        ∨ smart_router data auth xkey = .honeypot handle_honeypot_logic) := by
  constructor
  · intro hbad
    unfold smart_router
    rw [if_pos ⟨hprot, hbad⟩]
  · intro hok
    unfold smart_router
    rw [if_neg (fun h => h.2 hok)]
    by_cases ha : hasKey data "audioBase64" = true
    · left
      rw [if_pos ha]
    · right
      rw [if_neg ha]
      have hs : (hasKey data "sessionId" || hasKey data "message") = true := by
        simp only [Bool.not_eq_true] at ha
        simp [ha] at hprot
        simp [hprot]
      rw [if_pos hs]

/-- C1 witness: on the protected payload `{sessionId: "abc"}`, no
credential gives the 401 error, and the configured secret reaches a
handler. -/
theorem smart_router_protected_gate_witness :
    smart_router [("sessionId", JVal.jstr "abc")] none none
        = .err 401 "Invalid API key or malformed request"
      ∧ (smart_router [("sessionId", JVal.jstr "abc")] (some "mysecretkey") none
            = .voice (handle_voice_logic
                (lookupD [("sessionId", JVal.jstr "abc")] "language" (.jstr "English")))
          ∨ smart_router [("sessionId", JVal.jstr "abc")] (some "mysecretkey") none
            = .honeypot handle_honeypot_logic) :=
  ⟨(smart_router_protected_gate [("sessionId", JVal.jstr "abc")] none none rfl).1
      (by decide),
   (smart_router_protected_gate [("sessionId", JVal.jstr "abc")]
      (some "mysecretkey") none rfl).2 rfl⟩

/-- C2 counterexample: on a protected payload, `Authorization: Bearer
<secret>` (no x-api-key) is rejected with the 401 AuthError — no Bearer
prefix is ever stripped — refuting the claim that such a request passes
authentication. -/
theorem router_bearer_secret_rejected :
    smart_router [("sessionId", JVal.jstr "abc")]
        (some ("Bearer " ++ SUBMISSION_API_KEY)) none
      = .err 401 "Invalid API key or malformed request" := rfl

/-- C2 (amended): on a protected payload, authentication succeeds exactly
when the resolved credential — x-api-key when present and non-empty,
otherwise the Authorization value taken verbatim, with no Bearer
stripping — equals the configured secret. -/
theorem smart_router_auth_iff (data : Payload) (auth xkey : Option String)
    (hprot : (hasKey data "audioBase64" || hasKey data "sessionId") = true) :
    smart_router data auth xkey ≠ .err 401 "Invalid API key or malformed request"
      ↔ pyOr xkey auth = some SUBMISSION_API_KEY := by
  constructor
  · intro hne
    by_contra hbad
    apply hne
    unfold smart_router
    rw [if_pos ⟨hprot, hbad⟩]
  · intro hok
    unfold smart_router
    rw [if_neg (fun h => h.2 hok)]
    by_cases ha : hasKey data "audioBase64" = true
    · rw [if_pos ha]
      exact fun h => RouterResult.noConfusion h
    · rw [if_neg ha]
      by_cases hs : (hasKey data "sessionId" || hasKey data "message") = true
      · rw [if_pos hs]
        exact fun h => RouterResult.noConfusion h
      · rw [if_neg hs]
        intro h
        exact absurd (RouterResult.err.injEq 400 _ 401 _ ▸ h) (by simp)

/-- C2 witness: a bare `Authorization: mysecretkey` (no Bearer prefix, no
x-api-key) authenticates the protected payload `{audioBase64: "QUJD"}`. -/
theorem smart_router_auth_iff_witness :
    smart_router [("audioBase64", JVal.jstr "QUJD")] (some "mysecretkey") none
      ≠ .err 401 "Invalid API key or malformed request" :=
  (smart_router_auth_iff [("audioBase64", JVal.jstr "QUJD")]
    (some "mysecretkey") none rfl).mpr rfl

/-! ### Dispatch router: shape probing (C7) -/

/-- C7: the router classifies by structural probe in fixed priority order:
a payload with `audioBase64` is Voice (its handler echoing the language
field, defaulting to "English" when the field is missing, never
erroring); otherwise one with `sessionId` or `message` is
HoneypotConversation; otherwise — the empty payload included — the
400 UnclassifiableShapeError results, whatever the credentials were. -/
theorem smart_router_shape_probe (data : Payload) (auth xkey : Option String) :
    (hasKey data "audioBase64" = true →
      smart_router data auth xkey = .err 401 "Invalid API key or malformed request"
        ∨ smart_router data auth xkey
            = .voice (handle_voice_logic (lookupD data "language" (.jstr "English"))))
    ∧ (hasKey data "audioBase64" = true → hasKey data "language" = false →
        pyOr xkey auth = some SUBMISSION_API_KEY →
        smart_router data auth xkey = .voice (handle_voice_logic (.jstr "English")))
    ∧ (hasKey data "audioBase64" = false →
        (hasKey data "sessionId" || hasKey data "message") = true →
        smart_router data auth xkey = .err 401 "Invalid API key or malformed request"
          ∨ smart_router data auth xkey = .honeypot handle_honeypot_logic)
    ∧ (hasKey data "audioBase64" = false → hasKey data "sessionId" = false →
        hasKey data "message" = false →
        smart_router data auth xkey = .err 400 "Unknown request type") := by
  refine ⟨?_, ?_, ?_, ?_⟩
  · intro ha
    unfold smart_router
    by_cases hk : pyOr xkey auth = some SUBMISSION_API_KEY
    · right
      rw [if_neg (fun h => h.2 hk), if_pos ha]
    · left
      rw [if_pos ⟨by simp [ha], hk⟩]
  · intro ha hl hk
    have hfind : (data.find? (fun kv => kv.1 == "language")) = none := by
      rw [List.find?_eq_none]
      intro kv hkv hpx
      have hany : data.any (fun kv => kv.1 == "language") = true :=
        List.any_eq_true.mpr ⟨kv, hkv, hpx⟩
      unfold hasKey at hl
      rw [hany] at hl
      exact Bool.noConfusion hl
    unfold smart_router
    rw [if_neg (fun h => h.2 hk), if_pos ha]
    unfold lookupD
    rw [hfind]
  · intro ha hs
    unfold smart_router
    by_cases hk : pyOr xkey auth = some SUBMISSION_API_KEY
    · right
      rw [if_neg (fun h => h.2 hk), if_neg (by simp [ha]), if_pos hs]
    · by_cases hp : (hasKey data "audioBase64" || hasKey data "sessionId") = true
      · left
        rw [if_pos ⟨hp, hk⟩]
      · right
        rw [if_neg (fun h => hp h.1), if_neg (by simp [ha]), if_pos hs]
  · intro ha hs hm
    unfold smart_router
    rw [if_neg (fun h => by simp [ha, hs] at h), if_neg (by simp [ha]),
      if_neg (by simp [hs, hm])]

/-- C7 witness: a voice payload without a language field defaults to
"English" under a valid key, and the empty payload yields the 400 error
even alongside a valid credential. -/
theorem smart_router_shape_probe_witness :
    smart_router [("audioBase64", JVal.jstr "QUJD")] none (some "mysecretkey")
        = .voice (handle_voice_logic (.jstr "English"))
      ∧ smart_router [] none (some "mysecretkey")
        = .err 400 "Unknown request type" :=
  ⟨(smart_router_shape_probe [("audioBase64", JVal.jstr "QUJD")] none
      (some "mysecretkey")).2.1 rfl rfl rfl,
   (smart_router_shape_probe [] none (some "mysecretkey")).2.2.2 rfl rfl rfl⟩

/-! ### SMS and email detectors (C9, C10) -/

/-- Counting loop of `detect_sms_phishing` as a `countP`. -/
theorem foldl_count_eq {α : Type} (p : α → Bool) (l : List α) (n : ℕ) :
    l.foldl (fun acc w => if p w then acc + 1 else acc) n = n + l.countP p := by
  induction l generalizing n with
  | nil => simp
  | cons a t ih =>
    rw [List.foldl_cons, List.countP_cons, ih]
    by_cases hp : p a = true
    · rw [if_pos hp, if_pos hp]
      omega
    · rw [if_neg hp, if_neg hp]
      omega

/-- The capped probability crosses the 0.4 phishing threshold exactly from
the third keyword occurrence on. -/
theorem sms_threshold_iff (n : ℕ) :
    (decide (min ((n : ℚ) * (2 / 10)) (99 / 100) > 4 / 10) = true) ↔ 3 ≤ n := by
  rw [decide_eq_true_iff, gt_iff_lt, lt_min_iff]
  constructor
  · rintro ⟨h1, _⟩
    by_contra hlt
    push_neg at hlt
    interval_cases n <;> norm_num at h1
  · intro h3
    have h3q : (3 : ℚ) ≤ (n : ℚ) := by exact_mod_cast h3
    constructor
    · nlinarith
    · norm_num

/-- C9: the SMS detector reports phishing exactly when the lower-cased
whitespace tokens contain at least 3 keyword occurrences (with
multiplicity), and the probability is `min(0.2 × count, 0.99)`, hence
never above 0.99. -/
theorem detect_sms_phishing_spec (text : String) :
    ((detect_sms_phishing text).is_phishing = true
        ↔ 3 ≤ (wsSplit (pyLower text).data).countP
              (fun w => (phishing_keywords.map String.data).contains w))
      ∧ (detect_sms_phishing text).probability
          = min (((wsSplit (pyLower text).data).countP
                (fun w => (phishing_keywords.map String.data).contains w) : ℚ) * (2 / 10))
              (99 / 100)
      ∧ (detect_sms_phishing text).probability ≤ 99 / 100 := by
  unfold detect_sms_phishing
  dsimp only
  rw [foldl_count_eq (fun w => (phishing_keywords.map String.data).contains w)
    (wsSplit (pyLower text).data) 0, Nat.zero_add]
  refine ⟨sms_threshold_iff _, rfl, min_le_right _ _⟩

/-- C10: the email detector always charges at least the 0.1 base score,
reports at most 0.99, and says SCAM exactly when the accumulated
(unclamped) score exceeds 0.5. -/
theorem detect_email_scam_spec (sender subject body : String) :
    1 / 10 ≤ (detect_email_scam sender subject body).scam_score
      ∧ (detect_email_scam sender subject body).scam_score ≤ 99 / 100
      ∧ ((detect_email_scam sender subject body).verdict = "SCAM"
          ↔ 5 / 10 < emailRawScore sender subject body) := by
  have hbase : (1 : ℚ) / 10 ≤ emailRawScore sender subject body := by
    unfold emailRawScore
    split_ifs <;> norm_num
  unfold detect_email_scam
  dsimp only
  refine ⟨le_min hbase (by norm_num), min_le_right _ _, ?_⟩
  by_cases h : emailRawScore sender subject body > 5 / 10
  · rw [if_pos h]
    simpa using h
  · rw [if_neg h]
    constructor
    · intro hs
      exact absurd hs (by decide)
    · intro hlt
      exact absurd (show emailRawScore sender subject body > 5 / 10 from hlt) h

/-! ### Scoring engine: helper lemmas -/

/-- A prefix of a list is still a prefix after extending the list. -/
theorem pfxOf_append (n h e : List Char) (hp : pfxOf n h = true) :
    pfxOf n (h ++ e) = true := by
  induction n generalizing h with
  | nil => rfl
  | cons a as ih =>
    cases h with
    | nil => exact absurd hp (by simp [pfxOf])
    | cons b bs =>
      simp only [pfxOf, Bool.and_eq_true] at hp ⊢
      exact ⟨hp.1, ih bs hp.2⟩

/-- The empty needle occurs in every haystack. -/
theorem subOf_nil_left (h : List Char) : subOf [] h = true := by
  cases h with
  | nil => rfl
  | cons c t => simp [subOf, pfxOf]

/-- A substring of a list is still a substring after extending the list. -/
theorem subOf_append (n h e : List Char) (hs : subOf n h = true) :
    subOf n (h ++ e) = true := by
  induction h with
  | nil =>
    have hn : n = [] := by
      cases n with
      | nil => rfl
      | cons a as => exact absurd hs (by simp [subOf, pfxOf])
    subst hn
    simpa using subOf_nil_left e
  | cons c t ih =>
    simp only [subOf, Bool.or_eq_true] at hs
    rcases hs with hs | hs
    · simp only [List.cons_append, subOf, Bool.or_eq_true]
      exact Or.inl (pfxOf_append n (c :: t) e hs)
    · simp only [List.cons_append, subOf, Bool.or_eq_true]
      exact Or.inr (ih hs)

/-- Splitting across an interposed whitespace separator splits each side
on its own. -/
theorem wsSplitAux_append_sep (sep : Char) (hsep : isWs sep = true) (b : List Char) :
    ∀ (a acc : List Char),
      wsSplitAux (a ++ sep :: b) acc = wsSplitAux a acc ++ wsSplitAux b [] := by
  intro a
  induction a with
  | nil =>
    intro acc
    simp only [List.nil_append, wsSplitAux, List.append_eq, hsep, if_pos]
    by_cases hacc : acc = []
    · rw [if_pos hacc, if_pos hacc, List.nil_append]
    · rw [if_neg hacc, if_neg hacc, List.cons_append, List.nil_append]
  | cons c t ih =>
    intro acc
    simp only [List.cons_append, wsSplitAux, List.append_eq]
    by_cases hc : isWs c = true
    · rw [if_pos hc, if_pos hc]
      by_cases hacc : acc = []
      · rw [if_pos hacc, if_pos hacc, ih]
      · rw [if_neg hacc, if_neg hacc, ih, List.cons_append]
    · rw [if_neg hc, if_neg hc, ih]

/-- Tokenisation of `t ++ " " ++ k` is the two tokenisations, appended. -/
theorem wsSplit_append_space (t k : List Char) :
    wsSplit (t ++ ' ' :: k) = wsSplit t ++ wsSplit k := by
  unfold wsSplit
  exact wsSplitAux_append_sep ' ' rfl k t []

/-- A pointwise-weaker filter keeps no more elements. -/
theorem length_filter_mono {α : Type} (p q : α → Bool) :
    ∀ l : List α, (∀ x ∈ l, p x = true → q x = true) →
      (l.filter p).length ≤ (l.filter q).length := by
  intro l
  induction l with
  | nil => simp
  | cons a t ih =>
    intro h
    have ht := ih fun x hx => h x (List.mem_cons_of_mem a hx)
    simp only [List.filter_cons]
    by_cases hp : p a = true
    · rw [if_pos hp, if_pos (h a (List.mem_cons_self a t) hp)]
      simpa using ht
    · rw [if_neg hp]
      split
      · exact Nat.le_succ_of_le ht
      · exact ht

/-- The level tiers are exact: High from 60, Medium on [30,60), Low
below 30. -/
theorem levelOf_iff (s : ℕ) :
    (levelOf s = "High" ↔ 60 ≤ s)
      ∧ (levelOf s = "Medium" ↔ 30 ≤ s ∧ s < 60)
      ∧ (levelOf s = "Low" ↔ s < 30) := by
  unfold levelOf
  split_ifs with h1 h2
  · exact ⟨⟨fun _ => h1, fun _ => rfl⟩,
      ⟨fun h => absurd h (by decide), fun h => absurd h1 (by omega)⟩,
      ⟨fun h => absurd h (by decide), fun h => absurd h1 (by omega)⟩⟩
  · exact ⟨⟨fun h => absurd h (by decide), fun h => absurd h (by omega)⟩,
      ⟨fun _ => ⟨h2, by omega⟩, fun _ => rfl⟩,
      ⟨fun h => absurd h (by decide), fun h => absurd h (by omega)⟩⟩
  · exact ⟨⟨fun h => absurd h (by decide), fun h => absurd h (by omega)⟩,
      ⟨fun h => absurd h (by decide), fun h => absurd h (by omega)⟩,
      ⟨fun _ => by omega, fun _ => rfl⟩⟩

/-- Strings with different first characters differ. -/
theorem ne_of_head_ne (a b : String) (h : a.data.head? ≠ b.data.head?) : a ≠ b :=
  fun e => h (e ▸ rfl)

/-- Appending on the right keeps a string's first character. -/
theorem head_append (a b : String) (c0 : Char) (h : a.data.head? = some c0) :
    (a ++ b).data.head? = some c0 := by
  rw [String.data_append, List.head?_append, h]
  rfl

/-- No panic flag is the clean flag. -/
theorem panicFlag_ne_clean (pts : ℕ) (ks : List String) : panicFlag pts ks ≠ cleanFlag := by
  apply ne_of_head_ne
  unfold panicFlag
  rw [head_append ("Panic language (+" ++ toString pts ++ " pts): ")
    (String.intercalate ", " ks) 'P'
    (head_append ("Panic language (+" ++ toString pts) " pts): " 'P'
      (head_append "Panic language (+" (toString pts) 'P' rfl))]
  decide

/-- No financial-bait flag is the clean flag. -/
theorem baitFlag_ne_clean (pts : ℕ) (ks : List String) : baitFlag pts ks ≠ cleanFlag := by
  apply ne_of_head_ne
  unfold baitFlag
  rw [head_append ("Financial bait (+" ++ toString pts ++ " pts): ")
    (String.intercalate ", " ks) 'F'
    (head_append ("Financial bait (+" ++ toString pts) " pts): " 'F'
      (head_append "Financial bait (+" (toString pts) 'F' rfl))]
  decide

/-- No link flag is the clean flag. -/
theorem linkFlag_ne_clean (pts : ℕ) (link : String) : linkFlag pts link ≠ cleanFlag := by
  apply ne_of_head_ne
  unfold linkFlag
  rw [head_append ("Suspicious link (+" ++ toString pts ++ " pts): ") link 'S'
    (head_append ("Suspicious link (+" ++ toString pts) " pts): " 'S'
      (head_append "Suspicious link (+" (toString pts) 'S' rfl))]
  decide

/-- A category with no keyword matched contributes the empty match list. -/
theorem matchedKeywords_eq_nil (kws : List String) (t : String)
    (h : ∀ k ∈ kws, strContains (pyLower t) k = false) :
    matchedKeywords kws t = [] := by
  unfold matchedKeywords
  rw [List.filter_eq_nil_iff]
  intro k hk
  simp [h k hk]

/-- Lower-casing distributes over appending texts. -/
theorem pyLower_data_append (t u : String) :
    (pyLower (t ++ u)).data = (pyLower t).data ++ (pyLower u).data := by
  simp [pyLower, String.data_append]

/-- A keyword matched in `t` is still matched after appending to `t`. -/
theorem strContains_of_append (t u k : String)
    (h : strContains (pyLower t) k = true) :
    strContains (pyLower (t ++ u)) k = true := by
  unfold strContains at h ⊢
  rw [pyLower_data_append]
  exact subOf_append _ _ _ h

/-- Appending text never loses a matched keyword of a category. -/
theorem matched_length_mono (kws : List String) (t u : String) :
    (matchedKeywords kws t).length ≤ (matchedKeywords kws (t ++ u)).length :=
  length_filter_mono _ _ kws (fun k _ hk => strContains_of_append t u k hk)

/-- URL matches across a space-separated concatenation are the two sides'
matches, appended. -/
theorem urlMatches_append_space (t k : String) :
    urlMatches (t ++ " " ++ k) = urlMatches t ++ urlMatches k := by
  unfold urlMatches
  have hdata : (t ++ " " ++ k).data = t.data ++ ' ' :: k.data := by
    rw [String.data_append, String.data_append, List.append_assoc]
    rfl
  rw [hdata, wsSplit_append_space, List.filter_append]

/-! ### Scoring engine: the claims (C3, C4, C5, C6, C8) -/

/-- C3: for every keyword configuration, text and channel, the returned
score is within [0,100] (it is a natural number, so the lower bound is
inherent), and the level is exactly the documented tiering of the
returned (clamped) score: High iff ≥ 60, Medium iff in [30,60), Low
iff < 30. -/
theorem score_text_range_and_level (pk bk : List String) (t : String) (c : Channel) :
    (score_text pk bk t c).score ≤ 100
      ∧ ((score_text pk bk t c).level = "High" ↔ 60 ≤ (score_text pk bk t c).score)
      ∧ ((score_text pk bk t c).level = "Medium"
          ↔ 30 ≤ (score_text pk bk t c).score ∧ (score_text pk bk t c).score < 60)
      ∧ ((score_text pk bk t c).level = "Low" ↔ (score_text pk bk t c).score < 30) := by
  unfold score_text
  dsimp only
  exact ⟨min_le_right _ _, levelOf_iff _⟩

/-- C4: a text matching no configured keyword and containing no URL scores
exactly 0 with the single clean flag and level Low; moreover, for every
text the clean flag appears among the flags exactly when the score is 0,
so it is mutually exclusive with all other flags. -/
theorem score_text_clean (pk bk : List String) (t : String) (c : Channel)
    (hp : ∀ k ∈ pk, strContains (pyLower t) k = false)
    (hb : ∀ k ∈ bk, strContains (pyLower t) k = false)
    (hu : urlMatches t = []) :
    score_text pk bk t c = ⟨0, [cleanFlag], "Low"⟩
      ∧ ∀ (u : String) (d : Channel),
          (cleanFlag ∈ (score_text pk bk u d).flags
            ↔ (score_text pk bk u d).score = 0) := by
  constructor
  · unfold score_text
    rw [matchedKeywords_eq_nil pk t hp, matchedKeywords_eq_nil bk t hb, hu]
    rfl
  · intro u d
    unfold score_text
    dsimp only
    by_cases hz :
        min (20 * (matchedKeywords pk u).length + 20 * (matchedKeywords bk u).length
          + if (urlMatches u).length > 0 then linkPoints d else 0) 100 = 0
    · rw [if_pos hz]
      simp [hz]
    · rw [if_neg hz]
      simp only [hz, iff_false]
      intro hmem
      rcases List.mem_append.mp hmem with hmem | hmem
      · rcases List.mem_append.mp hmem with hmem | hmem
        · split at hmem
          · exact panicFlag_ne_clean _ _ (List.mem_singleton.mp hmem).symm
          · exact absurd hmem (List.not_mem_nil _)
        · split at hmem
          · exact baitFlag_ne_clean _ _ (List.mem_singleton.mp hmem).symm
          · exact absurd hmem (List.not_mem_nil _)
      · split at hmem
        · exact linkFlag_ne_clean _ _ (List.mem_singleton.mp hmem).symm
        · exact absurd hmem (List.not_mem_nil _)

/-- C4 witness: the clean text "hello there" under the reference keyword
configuration scores 0 with the clean flag and level Low. -/
theorem score_text_clean_witness :
    score_text ["urgent", "verify"] ["account"] "hello there" Channel.sms
      = ⟨0, [cleanFlag], "Low"⟩ :=
  (score_text_clean ["urgent", "verify"] ["account"] "hello there" Channel.sms
    (by decide) (by decide) (by decide)).1

/-- C5: a text with at least one URL-shaped match and no matched keyword
scores exactly the flat link bonus — 40 on channel sms, 15 on channel
email — however many links it contains. -/
theorem score_text_link_weight (pk bk : List String) (t : String)
    (hp : ∀ k ∈ pk, strContains (pyLower t) k = false)
    (hb : ∀ k ∈ bk, strContains (pyLower t) k = false)
    (hu : 0 < (urlMatches t).length) :
    (score_text pk bk t .sms).score = 40 ∧ (score_text pk bk t .email).score = 15 := by
  constructor <;>
  · unfold score_text
    dsimp only
    rw [matchedKeywords_eq_nil pk t hp, matchedKeywords_eq_nil bk t hb, if_pos hu]
    rfl

/-- C5 witness: one http link and no keywords give 40 on sms and 15 on
email for the same text. -/
theorem score_text_link_weight_witness :
    (score_text ["urgent", "verify"] ["account"]
        "see http://fake-site.com now" Channel.sms).score = 40
      ∧ (score_text ["urgent", "verify"] ["account"]
          "see http://fake-site.com now" Channel.email).score = 15 :=
  score_text_link_weight ["urgent", "verify"] ["account"]
    "see http://fake-site.com now" (by decide) (by decide) (by decide)

/-- C6: keyword matching is case-insensitive substring matching against
the lower-cased text, and for a duplicate-free configuration the panic
contribution is 20 points per distinct matched keyword — the set of
matched keywords, not the number of their occurrences, determines the
score. -/
theorem score_text_distinct_keywords (pk : List String) (t : String) (c : Channel)
    (hnd : pk.Nodup) :
    (score_text pk [] t c).score
      = min (20 * (pk.toFinset.filter (fun k => strContains (pyLower t) k = true)).card
          + (if 0 < (urlMatches t).length then linkPoints c else 0)) 100 := by
  have hcard : (matchedKeywords pk t).length
      = (pk.toFinset.filter (fun k => strContains (pyLower t) k = true)).card := by
    unfold matchedKeywords
    rw [← List.toFinset_filter]
    rw [List.toFinset_card_of_nodup (hnd.filter _)]
  unfold score_text
  dsimp only
  rw [hcard]
  rw [matchedKeywords_eq_nil [] t (by intro k hk; exact absurd hk (List.not_mem_nil k))]
  simp only [List.length_nil, Nat.mul_zero, Nat.add_zero, gt_iff_lt]

/-- C6 witness: "URGENT! urgent urgency" matches the keyword "urgent"
case-insensitively, inside the longer word "urgency", and three
occurrences still score once: 20 points. -/
theorem score_text_distinct_keywords_witness :
    (score_text ["urgent", "verify"] [] "URGENT! urgent urgency" Channel.sms).score
      = 20 :=
  (score_text_distinct_keywords ["urgent", "verify"] "URGENT! urgent urgency"
    Channel.sms (by decide)).trans (by decide)

/-- C8: appending a further panic keyword (separated by a space) to any
text never decreases the score, on either channel. -/
theorem score_text_monotone (pk bk : List String) (t k : String) (c : Channel)
    (hk : k ∈ pk) (hnew : strContains (pyLower t) k = false) :
    (score_text pk bk t c).score ≤ (score_text pk bk (t ++ " " ++ k) c).score := by
  have hassoc : t ++ " " ++ k = t ++ (" " ++ k) := String.append_assoc t " " k
  have h1 : (matchedKeywords pk t).length
      ≤ (matchedKeywords pk (t ++ " " ++ k)).length := by
    rw [hassoc]
    exact matched_length_mono pk t (" " ++ k)
  have h2 : (matchedKeywords bk t).length
      ≤ (matchedKeywords bk (t ++ " " ++ k)).length := by
    rw [hassoc]
    exact matched_length_mono bk t (" " ++ k)
  have h3 : (urlMatches t).length ≤ (urlMatches (t ++ " " ++ k)).length := by
    rw [urlMatches_append_space, List.length_append]
    omega
  unfold score_text
  dsimp only
  have hl : (if (urlMatches t).length > 0 then linkPoints c else 0)
      ≤ (if (urlMatches (t ++ " " ++ k)).length > 0 then linkPoints c else 0) := by
    split_ifs with hx hy
    · exact le_refl _
    · omega
    · exact Nat.zero_le _
    · exact le_refl _
  refine min_le_min ?_ le_rfl
  omega

/-- C8 witness: appending the fresh panic keyword "urgent" to "hello"
does not decrease the sms score. -/
theorem score_text_monotone_witness :
    (score_text ["urgent", "verify"] ["account"] "hello" Channel.sms).score
      ≤ (score_text ["urgent", "verify"] ["account"]
          ("hello" ++ " " ++ "urgent") Channel.sms).score :=
  score_text_monotone ["urgent", "verify"] ["account"] "hello" "urgent"
    Channel.sms (by decide) (by decide)

end AiScamDetection
